import Mathlib

/-!
Verification of the PINN training module (src/PINN_torch.py).

The development embeds the program at two levels.

Level 1 (computable, scalars in the rationals): tensors are shape-tagged
rational matrices with a requires-grad flag.  This level embeds the
parameter store (initialize_NN, xavier_init), the forward network
(neural_net), the prediction router (forward), the loss assembler
(loss_func), the coordinate normalizer (coor_shift) and the training
drivers (train_LBFGS, train, callback).  The three derivative evaluators
net_u, net_du, net_f appear at this level as opaque function parameters,
because their meaning is real calculus; their semantics is verified at
level 2.  Python dicts are association lists with first-match lookup,
Python exceptions are Except String.

Level 2 (real numbers, Mathlib deriv): the network is evaluated rowwise
- every tensor operation used by neural_net acts row by row, so row i of
the (N,1) output depends only on row i of the inputs - and
torch.autograd.grad of a scalar with respect to a tracked input vector is
embedded as the vector of partial derivatives (gradVec).  This level
embeds net_du, net_f and customized_backward.
-/

deriving instance DecidableEq for Except

/-- A torch tensor at the rational level: shape metadata, row-major data,
and the requires-grad flag. -/
structure Tensor where
  rows : Nat
  cols : Nat
  data : List (List ℚ)
  requiresGrad : Bool
deriving DecidableEq, Repr

/-- Entry (i, j) of a tensor, 0 outside the stored data. -/
def Tensor.entry (t : Tensor) (i j : Nat) : ℚ :=
  (t.data.getD i []).getD j 0

/-- Build an (r, c) tensor from an entry function. -/
def Tensor.ofFun (r c : Nat) (f : Nat → Nat → ℚ) (rg : Bool) : Tensor :=
  ⟨r, c, (List.range r).map (fun i => (List.range c).map (fun j => f i j)), rg⟩

/-- A (0,0) placeholder tensor, used as the default of list lookups. -/
def Tensor.empty : Tensor := ⟨0, 0, [], false⟩

/-- torch.matmul on 2-D tensors: entry (i, k) is the dot product of row i
of A with column k of B.  The result tracks gradients when either operand
does. -/
def Tensor.matmul (A B : Tensor) : Tensor :=
  Tensor.ofFun A.rows B.cols
    (fun i k => ((List.range A.cols).map (fun j => A.entry i j * B.entry j k)).sum)
    (A.requiresGrad || B.requiresGrad)

/-- torch.add of an (N, c) tensor and a (1, c) bias row, broadcasting the
bias over every row (the only addition pattern neural_net uses). -/
def Tensor.addRow (A b : Tensor) : Tensor :=
  Tensor.ofFun A.rows A.cols (fun i j => A.entry i j + b.entry 0 j)
    (A.requiresGrad || b.requiresGrad)

/-- Elementwise application of a scalar function (models torch.tanh; the
activation is a parameter because the real tanh has no rational
restriction). -/
def Tensor.tmap (act : ℚ → ℚ) (A : Tensor) : Tensor :=
  ⟨A.rows, A.cols, A.data.map (fun row => row.map act), A.requiresGrad⟩

/-- torch.cat((x, y), 1): columnwise concatenation. -/
def Tensor.cat2 (x y : Tensor) : Tensor :=
  Tensor.ofFun x.rows (x.cols + y.cols)
    (fun i j => if j < x.cols then x.entry i j else y.entry i (j - x.cols))
    (x.requiresGrad || y.requiresGrad)

/-- Elementwise difference (shapes taken from the left operand, as the
loss assembler subtracts equally shaped tensors). -/
def Tensor.sub (A B : Tensor) : Tensor :=
  Tensor.ofFun A.rows A.cols (fun i j => A.entry i j - B.entry i j)
    (A.requiresGrad || B.requiresGrad)

/-- Elementwise square, res.pow(2). -/
def Tensor.pow2 (A : Tensor) : Tensor :=
  ⟨A.rows, A.cols, A.data.map (fun row => row.map (fun q => q * q)), A.requiresGrad⟩

/-- torch.mean over all entries: sum of entries divided by the element
count rows * cols. -/
def Tensor.mean (A : Tensor) : ℚ :=
  (A.data.map List.sum).sum / ((A.rows : ℚ) * (A.cols : ℚ))

/-- The shape of a tensor, as torch reports it. -/
def Tensor.shape (t : Tensor) : Nat × Nat := (t.rows, t.cols)

/-- Source lines 43-45.  xavier_init(size): a fresh (size0, size1) tensor
filled by the Xavier-normal sampler (modeled by the entry source rand,
since the embedding is deterministic), wrapped as a Variable with
requires_grad=True. -/
def xavier_init (rand : Nat → Nat → ℚ) (r c : Nat) : Tensor :=
  Tensor.ofFun r c rand true

/-- A (1, c) zero bias tensor with requires_grad=True (source line 38). -/
def zerosBias (c : Nat) : Tensor :=
  Tensor.ofFun 1 c (fun _ _ => 0) true

/-- Source lines 32-41.  initialize_NN(layers): for l in
range(len(layers)-1), append xavier_init([layers l, layers (l+1)]) to the
weights and a zero (1, layers (l+1)) Variable to the biases.  The source
builds both lists in one loop; the embedding builds each by mapping over
the same index range, which yields the same lists.  rand l models the
Xavier sampler draw of layer l. -/
def initialize_NN (rand : Nat → Nat → Nat → ℚ) (layers : List Nat) :
    List Tensor × List Tensor :=
  let num_layers := layers.length
  ((List.range (num_layers - 1)).map
      (fun l => xavier_init (rand l) (layers.getD l 0) (layers.getD (l + 1) 0)),
   (List.range (num_layers - 1)).map
      (fun l => zerosBias (layers.getD (l + 1) 0)))

/-- Source lines 47-60.  neural_net(x, y, weights, biases):
H = cat((x, y), 1); for l in range(0, num_layers - 2) with
num_layers = len(weights) + 1, H = tanh(matmul(H, W_l) + b_l); finally
Y = matmul(H, weights[-1]) + biases[-1] with no activation. -/
def neural_net (act : ℚ → ℚ) (x y : Tensor) (weights biases : List Tensor) :
    Tensor :=
  let num_layers := weights.length + 1
  let H := (List.range (num_layers - 2)).foldl
    (fun H l =>
      Tensor.tmap act
        (Tensor.addRow (Tensor.matmul H (weights.getD l Tensor.empty))
          (biases.getD l Tensor.empty)))
    (Tensor.cat2 x y)
  Tensor.addRow (Tensor.matmul H (weights.getLastD Tensor.empty))
    (biases.getLastD Tensor.empty)

/-- Source lines 202-204.  coor_shift(X, lbs, ubs) = 2*(X - lbs)/(ubs - lbs) - 1.
numpy applies the formula elementwise along each axis; the embedding
states it for one scalar entry of one axis. -/
def coor_shift (X lbs ubs : ℚ) : ℚ :=
  2 * (X - lbs) / (ubs - lbs) - 1

/-- A Python dict with tensor values (x_tensors, y_tensors, true_dict). -/
abbrev TDict := List (String × Tensor)

/-- The prediction bundle: values may be Python None (modeled as none),
which forward leaves for roles it does not recognize. -/
abbrev PDict := List (String × Option Tensor)

/-- Python dict read d[k]: first matching key. -/
def dlookup {α : Type} (d : List (String × α)) (k : String) : Option α :=
  match d.find? (fun p => p.1 == k) with
  | some p => some p.2
  | none => none

/-- Python dict write d[k] = v: replace the first binding of k, or append
a fresh one. -/
def dset {α : Type} (d : List (String × α)) (k : String) (v : α) :
    List (String × α) :=
  match d with
  | [] => [(k, v)]
  | (k2, v2) :: rest => if k2 == k then (k, v) :: rest else (k2, v2) :: dset rest k v

/-- Source lines 96-113, the dispatch loop of forward.  The accumulator
preds is an Option because in the keys=None branch the local variable
preds is never created: any write preds[i] = ..., and the final return
preds, then raise UnboundLocalError.  Each recognized role first reads
x_tensors[i] and y_tensors[i] (KeyError when absent), calls the matching
evaluator, and only then assigns into preds, matching the order of
effects in the source. -/
def forwardLoop (net_u : Tensor → Tensor → Tensor)
    (net_du : Tensor → Tensor → Tensor × Tensor)
    (net_f : Tensor → Tensor → Tensor)
    (x_tensors y_tensors : TDict) :
    List String → Option PDict → Except String PDict
  | [], none => .error "UnboundLocalError: local variable preds referenced before assignment"
  | [], some preds => .ok preds
  | i :: rest, preds =>
    if i == "nuem" then
      match dlookup x_tensors i, dlookup y_tensors i with
      | some xt, some yt =>
        let dudx_pred := (net_du xt yt).1
        match preds with
        | none => .error "UnboundLocalError: local variable preds referenced before assignment"
        | some p =>
          forwardLoop net_u net_du net_f x_tensors y_tensors rest
            (some (dset p i (some dudx_pred)))
      | _, _ => .error ("KeyError: " ++ i)
    else if i == "f" then
      match dlookup x_tensors i, dlookup y_tensors i with
      | some xt, some yt =>
        let f_pred := net_f xt yt
        match preds with
        | none => .error "UnboundLocalError: local variable preds referenced before assignment"
        | some p =>
          forwardLoop net_u net_du net_f x_tensors y_tensors rest
            (some (dset p i (some f_pred)))
      | _, _ => .error ("KeyError: " ++ i)
    else if i == "u" then
      match dlookup x_tensors i, dlookup y_tensors i with
      | some xt, some yt =>
        let u_pred := net_u xt yt
        match preds with
        | none => .error "UnboundLocalError: local variable preds referenced before assignment"
        | some p =>
          forwardLoop net_u net_du net_f x_tensors y_tensors rest
            (some (dset p i (some u_pred)))
      | _, _ => .error ("KeyError: " ++ i)
    else if i == "diri" then
      match dlookup x_tensors i, dlookup y_tensors i with
      | some xt, some yt =>
        let diri_pred := net_u xt yt
        match preds with
        | none => .error "UnboundLocalError: local variable preds referenced before assignment"
        | some p =>
          forwardLoop net_u net_du net_f x_tensors y_tensors rest
            (some (dset p i (some diri_pred)))
      | _, _ => .error ("KeyError: " ++ i)
    else
      forwardLoop net_u net_du net_f x_tensors y_tensors rest preds

/-- Source lines 87-114.  forward(x_tensors, y_tensors, keys=None): when
keys is None the loop runs over the keys of x_tensors with preds left
unbound; when keys is given, preds is first filled with None for every
requested key.  The three evaluators net_u, net_du, net_f are the methods
of the model; their derivative semantics is embedded separately over the
reals. -/
def forward (net_u : Tensor → Tensor → Tensor)
    (net_du : Tensor → Tensor → Tensor × Tensor)
    (net_f : Tensor → Tensor → Tensor)
    (x_tensors y_tensors : TDict) (keys : Option (List String)) :
    Except String PDict :=
  match keys with
  | none =>
    forwardLoop net_u net_du net_f x_tensors y_tensors
      (x_tensors.map Prod.fst) none
  | some ks =>
    forwardLoop net_u net_du net_f x_tensors y_tensors ks
      (some (ks.map (fun k => (k, none))))

/-- Source lines 126-128, the accumulation loop of loss_func over the
keys of pred_dict.  Per key i: read true_dict[i] (KeyError when absent),
subtract (TypeError when pred_dict[i] is None), read weights[i] (KeyError
when absent), and add weights[i] * mean((pred - true)^2). -/
def lossLoop (pred_dict : PDict) (true_dict : TDict)
    (w : List (String × ℚ)) : List String → ℚ → Except String ℚ
  | [], acc => .ok acc
  | i :: rest, acc =>
    match dlookup pred_dict i with
    | none => .error ("KeyError: " ++ i)
    | some pv =>
      match dlookup true_dict i with
      | none => .error ("KeyError: " ++ i)
      | some t =>
        match pv with
        | none => .error "TypeError: unsupported operand for NoneType and Tensor"
        | some p =>
          match dlookup w i with
          | none => .error ("KeyError: " ++ i)
          | some wi =>
            lossLoop pred_dict true_dict w rest
              (acc + wi * ((p.sub t).pow2.mean))

/-- Source lines 116-130.  loss_func(pred_dict, true_dict, weights=None):
loss starts at 0.0, keys = pred_dict.keys(), missing weights default to
1.0 for every pred key, then the accumulation loop runs.  The returned
scalar stays differentiable in the source (requires_grad_); the embedding
returns the rational value. -/
def loss_func (pred_dict : PDict) (true_dict : TDict)
    (weights : Option (List (String × ℚ))) : Except String ℚ :=
  let keys := pred_dict.map Prod.fst
  let w : List (String × ℚ) :=
    match weights with
    | none => keys.map (fun k => (k, (1 : ℚ)))
    | some ws => ws
  lossLoop pred_dict true_dict w keys 0

/-- Reference value for the amended loss claim: the sum over the listed
keys of weight[k] * mean((pred[k] - true[k])^2), written from the words of
the specification (section 4.4) with total lookups. -/
def lossSumKeys (pred_dict : PDict) (true_dict : TDict)
    (w : List (String × ℚ)) : List String → ℚ
  | [] => 0
  | k :: ks =>
    (dlookup w k).getD 0 *
        ((((dlookup pred_dict k).getD none).getD Tensor.empty).sub
            ((dlookup true_dict k).getD Tensor.empty)).pow2.mean +
      lossSumKeys pred_dict true_dict w ks

/-- One training triple (x_tensor, y_tensor, u_tensor) as produced by
data_loader. -/
abbrev Triple := Tensor × Tensor × Tensor

/-- The train_dict mapping role names to training triples. -/
abbrev TrainDict := List (String × Triple)

/-- The mutable attributes of a PhysicsInformedNN object that the
training loops touch: the parameter lists, the grad slots of
weights + biases (positionally), the loss history, and the resting
prediction and loss stored after a run. -/
structure PINNState where
  weights : List Tensor
  biases : List Tensor
  grads : List (Option Tensor)
  loss_list : List ℚ
  pred_dict : Option PDict
  lossVal : Option ℚ
deriving DecidableEq, Repr

/-- Source lines 199-200.  callback(loss) appends the loss to
self.loss_list and does nothing else. -/
def callback (st : PINNState) (l : ℚ) : PINNState :=
  { st with loss_list := st.loss_list ++ [l] }

/-- The rational-level view of customized_backward (source lines
132-136): grads = autograd.grad(loss, weights + biases) - autograd kept
as a function parameter here, its calculus meaning is embedded over the
reals - and every params[vid].grad is assigned grads[vid] positionally. -/
def customized_backwardS (autogradQ : ℚ → List Tensor → List Tensor)
    (l : ℚ) (st : PINNState) : PINNState × List Tensor :=
  let grads := autogradQ l (st.weights ++ st.biases)
  ({ st with grads := grads.map some }, grads)

/-- The loop body shared verbatim by the closure of train_LBFGS (source
lines 157-170) and each epoch of train (source lines 181-191):
optimizer.zero_grad(), forward over the keys (diri, nuem, f), loss_func,
callback (the every-100th print only observes the state), then
customized_backward; the loss is returned. -/
def trainStep (net_u : Tensor → Tensor → Tensor)
    (net_du : Tensor → Tensor → Tensor × Tensor)
    (net_f : Tensor → Tensor → Tensor)
    (autogradQ : ℚ → List Tensor → List Tensor)
    (x_tensors y_tensors true_dict : TDict)
    (st : PINNState) : Except String (PINNState × ℚ) :=
  let st1 : PINNState :=
    { st with grads := (st.weights ++ st.biases).map (fun _ => none) }
  match forward net_u net_du net_f x_tensors y_tensors
      (some ["diri", "nuem", "f"]) with
  | .error e => .error e
  | .ok pred_dict =>
    match loss_func pred_dict true_dict none with
    | .error e => .error e
    | .ok l =>
      let st2 := callback st1 l
      let (st3, _g) := customized_backwardS autogradQ l st2
      .ok (st3, l)

/-- The iteration skeleton of both optimizer modes: n rounds of the loop
body followed by one parameter update.  In quasi-Newton mode this models
optimizer.step(closure) evaluating the closure an optimizer-chosen number
n of times with an internal parameter update (the update only sees and
only rewrites weights, biases and grads, exactly the variables handed to
torch.optim.LBFGS); in first-order mode it models the explicit epoch loop
whose update is optimizer.step().  Returns the final state, the number of
completed loop-body evaluations, and the first raised error if any. -/
def runSteps (body : PINNState → Except String (PINNState × ℚ))
    (update : List Tensor → List Tensor → List (Option Tensor) →
      List Tensor × List Tensor) :
    Nat → PINNState → PINNState × Nat × Option String
  | 0, st => (st, 0, none)
  | Nat.succ n, st =>
    match body st with
    | .error e => (st, 0, some e)
    | .ok (st1, _) =>
      let wb := update st1.weights st1.biases st1.grads
      let st2 := { st1 with weights := wb.1, biases := wb.2 }
      let r := runSteps body update n st2
      (r.1, r.2.1 + 1, r.2.2)

/-- Source lines 146-149, the loop of unzip_train_dict: per key, read
train_dict[i] (KeyError when absent) and assign its three components into
the x, y and target dicts. -/
def unzipLoop (train_dict : TrainDict) :
    List String → TDict × TDict × TDict → Except String (TDict × TDict × TDict)
  | [], acc => .ok acc
  | i :: rest, (xs, ys, ts) =>
    match dlookup train_dict i with
    | none => .error ("KeyError: " ++ i)
    | some tr =>
      unzipLoop train_dict rest
        (dset xs i tr.1, dset ys i tr.2.1, dset ts i tr.2.2)

/-- Source lines 138-151.  unzip_train_dict(train_dict, keys=None):
keys defaults to all keys of train_dict; returns the three dicts
(x_tensors, y_tensors, true_dict). -/
def unzip_train_dict (train_dict : TrainDict) (keys : Option (List String)) :
    Except String (TDict × TDict × TDict) :=
  let ks := match keys with
    | none => train_dict.map Prod.fst
    | some l => l
  unzipLoop train_dict ks ([], [], [])

/-- Source lines 153-175.  train_LBFGS(train_dict, loss_func, optimizer):
unzip the training data, let the optimizer drive the closure (nEvals
closure evaluations interleaved with internal parameter updates - the
count and the update rule are internal to torch.optim.LBFGS, so both are
parameters), then run one final forward pass and loss evaluation and
store them as self.pred_dict and self.loss.  An exception raised inside
the closure propagates out of optimizer.step. -/
def train_LBFGS (net_u : Tensor → Tensor → Tensor)
    (net_du : Tensor → Tensor → Tensor × Tensor)
    (net_f : Tensor → Tensor → Tensor)
    (autogradQ : ℚ → List Tensor → List Tensor)
    (update : List Tensor → List Tensor → List (Option Tensor) →
      List Tensor × List Tensor)
    (nEvals : Nat) (train_dict : TrainDict) (st : PINNState) :
    Except String PINNState :=
  match unzip_train_dict train_dict none with
  | .error e => .error e
  | .ok (x_tensors, y_tensors, true_dict) =>
    let r := runSteps
      (trainStep net_u net_du net_f autogradQ x_tensors y_tensors true_dict)
      update nEvals st
    match r.2.2 with
    | some e => .error e
    | none =>
      match forward net_u net_du net_f x_tensors y_tensors
          (some ["diri", "nuem", "f"]) with
      | .error e => .error e
      | .ok pd =>
        match loss_func pd true_dict none with
        | .error e => .error e
        | .ok l => .ok { r.1 with pred_dict := some pd, lossVal := some l }

/-- Source lines 177-197.  train(epoch, u_data, f_data, bc_data,
loss_func, optimizer): the body unpacks the name train_dict, which is not
among the parameters of train - it resolves to the global train_dict when
the surrounding script has defined one (here the Option argument
global_train_dict) and raises NameError otherwise; u_data, f_data and
bc_data are never read.  Each of the epoch iterations runs the shared
loop body and then optimizer.step() (the update parameter); afterwards
the final forward pass and loss are stored. -/
def train (net_u : Tensor → Tensor → Tensor)
    (net_du : Tensor → Tensor → Tensor × Tensor)
    (net_f : Tensor → Tensor → Tensor)
    (autogradQ : ℚ → List Tensor → List Tensor)
    (update : List Tensor → List Tensor → List (Option Tensor) →
      List Tensor × List Tensor)
    (epoch : Nat) (u_data f_data bc_data : Triple)
    (global_train_dict : Option TrainDict) (st : PINNState) :
    Except String PINNState :=
  match global_train_dict with
  | none => .error "NameError: name train_dict is not defined"
  | some train_dict =>
    match unzip_train_dict train_dict none with
    | .error e => .error e
    | .ok (x_tensors, y_tensors, true_dict) =>
      let r := runSteps
        (trainStep net_u net_du net_f autogradQ x_tensors y_tensors true_dict)
        update epoch st
      match r.2.2 with
      | some e => .error e
      | none =>
        match forward net_u net_du net_f x_tensors y_tensors
            (some ["diri", "nuem", "f"]) with
        | .error e => .error e
        | .ok pd =>
          match loss_func pd true_dict none with
          | .error e => .error e
          | .ok l => .ok { r.1 with pred_dict := some pd, lossVal := some l }

/-- Dot product of two real lists (one row of H times one column of W in
torch.matmul). -/
noncomputable def dotR (a b : List ℝ) : ℝ := (List.zipWith (· * ·) a b).sum

/-- Column j of a row-major real matrix. -/
noncomputable def colR (W : List (List ℝ)) (j : Nat) : List ℝ :=
  W.map (fun row => row.getD j 0)

/-- One affine layer on a single row h: output j is
dot(h, column j of W) + b j, which is row i of matmul(H, W) + b in the
source. -/
noncomputable def denseR (W : List (List ℝ)) (b : List ℝ) (h : List ℝ) : List ℝ :=
  (List.range b.length).map (fun j => dotR h (colR W j) + b.getD j 0)

/-- Source lines 47-60, evaluated on one row [x, y] of the (N,2) input:
apply tanh after every layer while more than one weight remains (the
loop for l in range(num_layers - 2)), and apply the last layer with no
activation (Y = matmul(H, weights[-1]) + biases[-1]).  Every tensor
operation in neural_net acts row by row, so this is exactly row i of the
source network. -/
noncomputable def neural_netR :
    List (List (List ℝ)) → List (List ℝ) → List ℝ → List ℝ
  | [W], [b], h => denseR W b h
  | W :: Ws, b :: bs, h =>
    neural_netR Ws bs ((denseR W b h).map Real.tanh)
  | _, _, h => h

/-- The scalar the autodiff sees per row: u.sum() restricted to row i.
For the (N,1) outputs the network produces, the row sum is the single
entry of the row, so this is the network output u at the point (x, y). -/
noncomputable def netPointR (Ws : List (List (List ℝ))) (bs : List (List ℝ))
    (x y : ℝ) : ℝ :=
  (neural_netR Ws bs [x, y]).sum

/-- torch.autograd.grad(F(v).sum-style scalar, v): the vector of partial
derivatives of the scalar function F at v, component i obtained by
varying only coordinate i. -/
noncomputable def gradVec {N : ℕ} (F : (Fin N → ℝ) → ℝ) (v : Fin N → ℝ) :
    Fin N → ℝ :=
  fun i => deriv (fun t => F (Function.update v i t)) (v i)

/-- A column tensor of N real rows together with its requires-grad
flag. -/
structure RTensor (N : ℕ) where
  val : Fin N → ℝ
  requiresGrad : Bool

/-- The values that net_du computes from the input columns: the code
builds u = neural_net(x, y, weights, biases) rowwise and differentiates
u.sum() with respect to x and with respect to y.  Because autograd
differentiates through the whole graph, the derivative of the tensor u_x
with respect to a later input change is the derivative of this function
of the inputs; net_f below re-differentiates exactly it. -/
noncomputable def net_du_val {N : ℕ} (Ws : List (List (List ℝ)))
    (bs : List (List ℝ)) (xv yv : Fin N → ℝ) : (Fin N → ℝ) × (Fin N → ℝ) :=
  (gradVec (fun xw => ∑ j, netPointR Ws bs (xw j) (yv j)) xv,
   gradVec (fun yw => ∑ j, netPointR Ws bs (xv j) (yw j)) yv)

/-- Source lines 66-73.  net_du(x, y): torch.autograd.grad raises when an
input is not gradient-tracked (the derivative-undefined failure of the
specification); otherwise u_x = grad(u.sum(), x), u_y = grad(u.sum(), y),
both returned with requires_grad_(True). -/
noncomputable def net_du {N : ℕ} (Ws : List (List (List ℝ)))
    (bs : List (List ℝ)) (x y : RTensor N) :
    Except String (RTensor N × RTensor N) :=
  if x.requiresGrad && y.requiresGrad then
    .ok (⟨(net_du_val Ws bs x.val y.val).1, true⟩,
         ⟨(net_du_val Ws bs x.val y.val).2, true⟩)
  else
    .error "RuntimeError: one of the differentiated tensors does not require grad"

/-- Source lines 75-85.  net_f(x, y): u_x, u_y = net_du(x, y);
u_yy = grad(u_y.sum(), y, create_graph=True);
u_xx = grad(u_x.sum(), x, create_graph=True); f = u_yy + u_xx, returned
with requires_grad_(True).  The graph recorded in u_x (resp. u_y) is the
function of the inputs computed by net_du_val, so the second grad calls
differentiate that function. -/
noncomputable def net_f {N : ℕ} (Ws : List (List (List ℝ)))
    (bs : List (List ℝ)) (x y : RTensor N) : Except String (RTensor N) :=
  match net_du Ws bs x y with
  | .error e => .error e
  | .ok (_u_x, _u_y) =>
    let u_yy := gradVec (fun yw => ∑ j, (net_du_val Ws bs x.val yw).2 j) y.val
    let u_xx := gradVec (fun xw => ∑ j, (net_du_val Ws bs xw y.val).1 j) x.val
    .ok ⟨fun i => u_yy i + u_xx i, true⟩

/-- A trainable parameter as the optimizer sees it: its value and its
grad slot. -/
structure ParamR (n : ℕ) where
  val : Fin n → ℝ
  grad : Fin n → Option ℝ

/-- Source lines 132-136.  customized_backward(loss, params):
grads = torch.autograd.grad(loss, params) - embedded as the vector of
partial derivatives of the loss function at the current parameter values
- then params[vid].grad = grads[vid] for every position vid; the grads
are also returned. -/
noncomputable def customized_backward {n : ℕ} (loss : (Fin n → ℝ) → ℝ)
    (params : ParamR n) : ParamR n × (Fin n → ℝ) :=
  let grads := gradVec loss params.val
  ({ val := params.val, grad := fun i => some (grads i) }, grads)

/- Helper lemmas. -/

lemma getD_map_range {α : Type} (n l : Nat) (f : Nat → α) (d : α) (h : l < n) :
    ((List.range n).map f).getD l d = f l := by
  rw [List.getD_eq_getElem?_getD, List.getElem?_map, List.getElem?_range h]
  rfl

lemma rows_matmul (A B : Tensor) : (A.matmul B).rows = A.rows := rfl

lemma cols_matmul (A B : Tensor) : (A.matmul B).cols = B.cols := rfl

lemma rows_addRow (A b : Tensor) : (A.addRow b).rows = A.rows := rfl

lemma cols_addRow (A b : Tensor) : (A.addRow b).cols = A.cols := rfl

lemma rows_tmap (f : ℚ → ℚ) (A : Tensor) : (A.tmap f).rows = A.rows := rfl

lemma rows_cat2 (x y : Tensor) : (x.cat2 y).rows = x.rows := rfl

lemma cols_cat2 (x y : Tensor) : (x.cat2 y).cols = x.cols + y.cols := rfl

lemma foldl_rows_inv (f : Tensor → Nat → Tensor)
    (hf : ∀ t l, (f t l).rows = t.rows) :
    ∀ (L : List Nat) (t : Tensor), (L.foldl f t).rows = t.rows := by
  intro L
  induction L with
  | nil => intro t; rfl
  | cons a L ih => intro t; rw [List.foldl_cons, ih (f t a), hf t a]

/-- C7: coor_shift computes the affine map 2*(X - lb)/(ub - lb) - 1 and,
whenever the upper bound differs from the lower bound, it sends the lower
bound to -1 and the upper bound to 1 exactly. -/
theorem C7_coor_shift_bounds (X lbs ubs : ℚ) (h : ubs ≠ lbs) :
    coor_shift X lbs ubs = 2 * (X - lbs) / (ubs - lbs) - 1 ∧
    coor_shift lbs lbs ubs = -1 ∧
    coor_shift ubs lbs ubs = 1 := by
  have hd : ubs - lbs ≠ 0 := sub_ne_zero.mpr h
  refine ⟨rfl, ?_, ?_⟩
  · unfold coor_shift
    rw [sub_self, mul_zero, zero_div]
    norm_num
  · unfold coor_shift
    rw [mul_div_assoc, div_self hd]
    norm_num

/-- Witness for C7 at X = 5, lbs = 0, ubs = 1. -/
theorem C7_coor_shift_bounds_witness :
    (1 : ℚ) ≠ 0 ∧ coor_shift 0 0 1 = -1 ∧ coor_shift 1 0 1 = 1 :=
  ⟨by norm_num,
   (C7_coor_shift_bounds 5 0 1 (by norm_num)).2.1,
   (C7_coor_shift_bounds 5 0 1 (by norm_num)).2.2⟩

/-- C5: for layer lists of length at least 2, initialize_NN returns
len(layers) - 1 weight tensors and as many bias tensors; the l-th weight
has shape (layers l, layers (l+1)), the l-th bias has shape
(1, layers (l+1)) with all-zero data, and every returned tensor requires
gradient tracking. -/
theorem C5_initialize_NN_shapes (rand : Nat → Nat → Nat → ℚ)
    (layers : List Nat) (h : 2 ≤ layers.length) :
    (initialize_NN rand layers).1.length = layers.length - 1 ∧
    (initialize_NN rand layers).2.length = layers.length - 1 ∧
    (∀ l, l < layers.length - 1 →
      ((initialize_NN rand layers).1.getD l Tensor.empty).shape =
          (layers.getD l 0, layers.getD (l + 1) 0) ∧
        ((initialize_NN rand layers).1.getD l Tensor.empty).requiresGrad = true ∧
        ((initialize_NN rand layers).2.getD l Tensor.empty).shape =
          (1, layers.getD (l + 1) 0) ∧
        ((initialize_NN rand layers).2.getD l Tensor.empty).requiresGrad = true ∧
        ((initialize_NN rand layers).2.getD l Tensor.empty).data =
          [List.replicate (layers.getD (l + 1) 0) 0]) := by
  refine ⟨?_, ?_, ?_⟩
  · simp [initialize_NN]
  · simp [initialize_NN]
  · intro l hl
    have hw : (initialize_NN rand layers).1.getD l Tensor.empty =
        xavier_init (rand l) (layers.getD l 0) (layers.getD (l + 1) 0) := by
      unfold initialize_NN
      exact getD_map_range _ _ _ _ hl
    have hb : (initialize_NN rand layers).2.getD l Tensor.empty =
        zerosBias (layers.getD (l + 1) 0) := by
      unfold initialize_NN
      exact getD_map_range _ _ _ _ hl
    refine ⟨by rw [hw]; rfl, by rw [hw]; rfl, by rw [hb]; rfl, by rw [hb]; rfl, ?_⟩
    rw [hb]
    unfold zerosBias Tensor.ofFun
    simp [List.eq_replicate_iff]

/-- Witness for C5 on the layer list [2, 3, 1]. -/
theorem C5_initialize_NN_shapes_witness :
    2 ≤ ([2, 3, 1] : List Nat).length ∧
    (initialize_NN (fun _ _ _ => (1 : ℚ)) [2, 3, 1]).1.length =
      ([2, 3, 1] : List Nat).length - 1 :=
  ⟨by decide,
   (C5_initialize_NN_shapes (fun _ _ _ => (1 : ℚ)) [2, 3, 1] (by decide)).1⟩

/-- C6: neural_net concatenates the two column inputs into an (N, 2)
tensor, propagates N rows through every layer, produces an (N, 1) output
when the final layer width is 1, and on a single weight/bias pair it is
exactly the affine map with no activation applied. -/
theorem C6_neural_net_shapes (act : ℚ → ℚ) (x y : Tensor)
    (weights biases : List Tensor) (hk : weights ≠ [])
    (hx : x.cols = 1) (hy : y.cols = 1)
    (hlast : (weights.getLastD Tensor.empty).cols = 1) :
    (x.cat2 y).shape = (x.rows, 2) ∧
    (neural_net act x y weights biases).shape = (x.rows, 1) ∧
    (∀ W b, neural_net act x y [W] [b] =
      Tensor.addRow (Tensor.matmul (x.cat2 y) W) b) := by
  refine ⟨?_, ?_, ?_⟩
  · unfold Tensor.shape
    rw [rows_cat2, cols_cat2, hx, hy]
  · simp only [Tensor.shape, neural_net, Prod.mk.injEq]
    constructor
    · rw [rows_addRow, rows_matmul]
      rw [foldl_rows_inv _ (fun t l => by rw [rows_tmap, rows_addRow, rows_matmul])]
      exact rows_cat2 x y
    · rw [cols_addRow, cols_matmul, hlast]
  · intro W b
    rfl

/-- Witness for C6 on a one-layer network over 1-row column inputs. -/
theorem C6_neural_net_shapes_witness :
    (⟨1, 1, [[0]], true⟩ : Tensor).cols = 1 ∧
    (neural_net id ⟨1, 1, [[0]], true⟩ ⟨1, 1, [[0]], true⟩
        [⟨2, 1, [[1], [1]], true⟩] [⟨1, 1, [[0]], true⟩]).shape =
      ((⟨1, 1, [[0]], true⟩ : Tensor).rows, 1) :=
  ⟨by decide,
   (C6_neural_net_shapes id ⟨1, 1, [[0]], true⟩ ⟨1, 1, [[0]], true⟩
      [⟨2, 1, [[1], [1]], true⟩] [⟨1, 1, [[0]], true⟩]
      (by decide) (by decide) (by decide) (by decide)).2.1⟩

lemma lossLoop_ok_covers (P : PDict) (T : TDict) (w : List (String × ℚ)) :
    ∀ (ks : List String) (acc v : ℚ),
      lossLoop P T w ks acc = Except.ok v →
      ∀ k, k ∈ ks → (dlookup T k).isSome = true := by
  intro ks
  induction ks with
  | nil => intro acc v _ k hk; cases hk
  | cons i rest ih =>
    intro acc v h k hk
    rw [lossLoop] at h
    cases hP : dlookup P i with
    | none => rw [hP] at h; cases h
    | some pv =>
      rw [hP] at h
      cases hT : dlookup T i with
      | none => rw [hT] at h; cases h
      | some t =>
        rw [hT] at h
        cases pv with
        | none => cases h
        | some p =>
          cases hw : dlookup w i with
          | none => rw [hw] at h; cases h
          | some wi =>
            rw [hw] at h
            rcases List.mem_cons.mp hk with rfl | hk2
            · rw [hT]; rfl
            · exact ih _ _ h k hk2

lemma lossLoop_sum (P : PDict) (T : TDict) (w : List (String × ℚ)) :
    ∀ (ks : List String),
      (∀ k ∈ ks, ∃ p, dlookup P k = some (some p)) →
      (∀ k ∈ ks, (dlookup T k).isSome = true) →
      (∀ k ∈ ks, (dlookup w k).isSome = true) →
      ∀ acc, lossLoop P T w ks acc = Except.ok (acc + lossSumKeys P T w ks) := by
  intro ks
  induction ks with
  | nil => intro _ _ _ acc; rw [lossSumKeys, add_zero]; rfl
  | cons i rest ih =>
    intro hP hT hw acc
    obtain ⟨p, hp⟩ := hP i (List.mem_cons_self i rest)
    obtain ⟨t, ht⟩ := Option.isSome_iff_exists.mp (hT i (List.mem_cons_self i rest))
    obtain ⟨wi, hwi⟩ := Option.isSome_iff_exists.mp (hw i (List.mem_cons_self i rest))
    rw [lossLoop, hp, ht, hwi]
    show lossLoop P T w rest (acc + wi * (p.sub t).pow2.mean) =
      Except.ok (acc + lossSumKeys P T w (i :: rest))
    rw [ih (fun k hk => hP k (List.mem_cons_of_mem i hk))
        (fun k hk => hT k (List.mem_cons_of_mem i hk))
        (fun k hk => hw k (List.mem_cons_of_mem i hk))]
    rw [lossSumKeys, hp, ht, hwi]
    simp only [Option.getD_some]
    rw [add_assoc]

/-- C3 (amended): loss_func never succeeds while some prediction key is
missing from the targets (it raises a KeyError there), and whenever every
prediction key has a target, a value and a weight - in particular when
the key-sets are identical - it returns the sum over the prediction roles
of weight[role] * mean((prediction[role] - target[role])^2).  Extra keys
of the target dict are silently ignored, which is the corrected part of
the claim; see the counterexample. -/
theorem C3_loss_func_roles :
    (∀ (P : PDict) (T : TDict) (w : Option (List (String × ℚ))) (v : ℚ),
        loss_func P T w = Except.ok v →
        ∀ k ∈ P.map Prod.fst, (dlookup T k).isSome = true) ∧
    (∀ (P : PDict) (T : TDict) (w : List (String × ℚ)),
        (∀ k ∈ P.map Prod.fst, ∃ p, dlookup P k = some (some p)) →
        (∀ k ∈ P.map Prod.fst, (dlookup T k).isSome = true) →
        (∀ k ∈ P.map Prod.fst, (dlookup w k).isSome = true) →
        loss_func P T (some w) =
          Except.ok (lossSumKeys P T w (P.map Prod.fst))) := by
  constructor
  · intro P T w v h k hk
    cases w with
    | none => exact lossLoop_ok_covers P T _ _ _ _ h k hk
    | some ws => exact lossLoop_ok_covers P T ws _ _ _ h k hk
  · intro P T w hP hT hw
    have := lossLoop_sum P T w (P.map Prod.fst) hP hT hw 0
    rw [zero_add] at this
    exact this

/-- Counterexample to C3 as stated: the target dict has the extra key f,
so the key-sets differ, yet loss_func succeeds (returning the weighted
mean-square over the prediction keys) instead of failing: extra target
keys are silently ignored because the loop ranges over pred_dict.keys()
only. -/
theorem C3_loss_func_roles_counterexample :
    dlookup ([("u", ⟨1, 1, [[1]], false⟩), ("f", ⟨1, 1, [[5]], false⟩)] : TDict)
        "f" = some ⟨1, 1, [[5]], false⟩ ∧
    dlookup ([("u", some ⟨1, 1, [[2]], false⟩)] : PDict) "f" = none ∧
    loss_func [("u", some ⟨1, 1, [[2]], false⟩)]
        [("u", ⟨1, 1, [[1]], false⟩), ("f", ⟨1, 1, [[5]], false⟩)] none =
      Except.ok 1 := by
  refine ⟨by decide, by decide, ?_⟩
  have h1 : Tensor.mean (Tensor.pow2 (Tensor.sub ⟨1, 1, [[2]], false⟩
      ⟨1, 1, [[1]], false⟩)) = 1 := by
    norm_num [Tensor.mean, Tensor.pow2, Tensor.sub, Tensor.ofFun, Tensor.entry,
      List.range_succ]
  show lossLoop [("u", some ⟨1, 1, [[2]], false⟩)]
      [("u", ⟨1, 1, [[1]], false⟩), ("f", ⟨1, 1, [[5]], false⟩)]
      [("u", 1)] ["u"] 0 = Except.ok 1
  show lossLoop [("u", some ⟨1, 1, [[2]], false⟩)]
      [("u", ⟨1, 1, [[1]], false⟩), ("f", ⟨1, 1, [[5]], false⟩)]
      [("u", 1)] [] (0 + 1 * Tensor.mean (Tensor.pow2 (Tensor.sub
        ⟨1, 1, [[2]], false⟩ ⟨1, 1, [[1]], false⟩))) = Except.ok 1
  rw [lossLoop, h1]
  norm_num

/-- Witness for C3: a run with identical key-sets, evaluated concretely
through the amended theorem. -/
theorem C3_loss_func_roles_witness :
    (∀ k ∈ ([("u", some ⟨1, 1, [[3]], false⟩)] : PDict).map Prod.fst,
      (dlookup ([("u", ⟨1, 1, [[1]], false⟩)] : TDict) k).isSome = true) ∧
    loss_func [("u", some ⟨1, 1, [[3]], false⟩)] [("u", ⟨1, 1, [[1]], false⟩)]
        (some [("u", 2)]) =
      Except.ok (lossSumKeys [("u", some ⟨1, 1, [[3]], false⟩)]
        [("u", ⟨1, 1, [[1]], false⟩)] [("u", 2)]
        (([("u", some ⟨1, 1, [[3]], false⟩)] : PDict).map Prod.fst)) :=
  ⟨by decide,
   C3_loss_func_roles.2 [("u", some ⟨1, 1, [[3]], false⟩)]
     [("u", ⟨1, 1, [[1]], false⟩)] [("u", 2)]
     (by intro k hk; fin_cases hk; exact ⟨_, rfl⟩)
     (by decide) (by decide)⟩

/-- C2 (code bug): with the roles argument omitted (keys=None), forward
raises UnboundLocalError instead of returning a bundle with an entry per
role present in the point-sets, because the branch that defaults keys to
x_tensors.keys() never initializes the local dict preds.  The second
conjunct shows the same call with the keys passed explicitly succeeds, so
the missing preds = dict() initialization in the keys=None branch is the
slip.  The evaluators are instantiated concretely; the failure is
independent of them. -/
theorem C2_forward_keys_none_crash :
    forward (fun a _ => a) (fun a b => (a, b)) (fun a _ => a)
        [("u", Tensor.empty)] [("u", Tensor.empty)] none =
      Except.error
        "UnboundLocalError: local variable preds referenced before assignment" ∧
    forward (fun a _ => a) (fun a b => (a, b)) (fun a _ => a)
        [("u", Tensor.empty)] [("u", Tensor.empty)] (some ["u"]) =
      Except.ok [("u", some Tensor.empty)] ∧
    forward (fun a _ => a) (fun a b => (a, b)) (fun a _ => a)
        [] [] none =
      Except.error
        "UnboundLocalError: local variable preds referenced before assignment" := by
  refine ⟨by decide, by decide, by decide⟩

lemma dlookup_cons_ne {α : Type} (k2 : String) (v2 : α)
    (rest : List (String × α)) (k : String) (h : k2 ≠ k) :
    dlookup ((k2, v2) :: rest) k = dlookup rest k := by
  unfold dlookup
  rw [List.find?_cons_of_neg]
  simp [h]

lemma dlookup_cons_self {α : Type} (k : String) (v : α)
    (rest : List (String × α)) :
    dlookup ((k, v) :: rest) k = some v := by
  unfold dlookup
  rw [List.find?_cons_of_pos]
  simp

lemma dset_cons_self {α : Type} (k : String) (v2 v : α)
    (rest : List (String × α)) :
    dset ((k, v2) :: rest) k v = (k, v) :: rest := by
  rw [dset, if_pos]
  exact beq_self_eq_true k

lemma dset_cons_ne {α : Type} (k2 : String) (v2 : α)
    (rest : List (String × α)) (i : String) (v : α) (h : k2 ≠ i) :
    dset ((k2, v2) :: rest) i v = (k2, v2) :: dset rest i v := by
  rw [dset, if_neg]
  simp [h]

lemma dlookup_dset_ne {α : Type} (p : List (String × α)) (i k : String)
    (v : α) (h : k ≠ i) : dlookup (dset p i v) k = dlookup p k := by
  induction p with
  | nil =>
    show dlookup [(i, v)] k = dlookup [] k
    rw [dlookup_cons_ne _ _ _ _ (Ne.symm h)]
  | cons hd rest ih =>
    obtain ⟨k2, v2⟩ := hd
    by_cases hk2 : k2 = i
    · subst hk2
      rw [dset_cons_self, dlookup_cons_ne _ _ _ _ (Ne.symm h),
        dlookup_cons_ne _ _ _ _ (Ne.symm h)]
    · rw [dset_cons_ne _ _ _ _ _ hk2]
      by_cases hk3 : k2 = k
      · subst hk3
        rw [dlookup_cons_self, dlookup_cons_self]
      · rw [dlookup_cons_ne _ _ _ _ hk3, dlookup_cons_ne _ _ _ _ hk3]
        exact ih

lemma dlookup_map_none (ks : List String) (r : String) (h : r ∈ ks) :
    dlookup (ks.map (fun k => (k, (none : Option Tensor)))) r = some none := by
  induction ks with
  | nil => cases h
  | cons i rest ih =>
    rw [List.map_cons]
    by_cases hir : i = r
    · subst hir
      rw [dlookup_cons_self]
    · rw [dlookup_cons_ne _ _ _ _ hir]
      rcases List.mem_cons.mp h with rfl | h3
      · exact absurd rfl hir
      · exact ih h3

lemma forwardLoop_unknown (net_u : Tensor → Tensor → Tensor)
    (net_du : Tensor → Tensor → Tensor × Tensor)
    (net_f : Tensor → Tensor → Tensor)
    (xts yts : TDict) (r : String)
    (hr : r ∉ (["u", "diri", "nuem", "f"] : List String)) :
    ∀ (ks : List String) (p : PDict), dlookup p r = some none →
      ∀ preds,
        forwardLoop net_u net_du net_f xts yts ks (some p) = Except.ok preds →
        dlookup preds r = some none := by
  have hru : r ≠ "u" := by intro e; subst e; simp at hr
  have hrd : r ≠ "diri" := by intro e; subst e; simp at hr
  have hrn : r ≠ "nuem" := by intro e; subst e; simp at hr
  have hrf : r ≠ "f" := by intro e; subst e; simp at hr
  intro ks
  induction ks with
  | nil =>
    intro p hp preds h
    rw [forwardLoop] at h
    cases h
    exact hp
  | cons i rest ih =>
    intro p hp preds h
    rw [forwardLoop] at h
    by_cases h1 : i = "nuem"
    · subst h1
      rw [if_pos (by decide)] at h
      cases hx : dlookup xts "nuem" with
      | none => simp only [hx] at h; exact Except.noConfusion h
      | some xt =>
        cases hy : dlookup yts "nuem" with
        | none => simp only [hx, hy] at h; exact Except.noConfusion h
        | some yt =>
          simp only [hx, hy] at h
          exact ih (dset p "nuem" (some (net_du xt yt).1))
            (by rw [dlookup_dset_ne _ _ _ _ hrn]; exact hp) preds h
    · rw [if_neg (by simp [h1])] at h
      by_cases h2 : i = "f"
      · subst h2
        rw [if_pos (by decide)] at h
        cases hx : dlookup xts "f" with
        | none => simp only [hx] at h; exact Except.noConfusion h
        | some xt =>
          cases hy : dlookup yts "f" with
          | none => simp only [hx, hy] at h; exact Except.noConfusion h
          | some yt =>
            simp only [hx, hy] at h
            exact ih (dset p "f" (some (net_f xt yt)))
              (by rw [dlookup_dset_ne _ _ _ _ hrf]; exact hp) preds h
      · rw [if_neg (by simp [h2])] at h
        by_cases h3 : i = "u"
        · subst h3
          rw [if_pos (by decide)] at h
          cases hx : dlookup xts "u" with
          | none => simp only [hx] at h; exact Except.noConfusion h
          | some xt =>
            cases hy : dlookup yts "u" with
            | none => simp only [hx, hy] at h; exact Except.noConfusion h
            | some yt =>
              simp only [hx, hy] at h
              exact ih (dset p "u" (some (net_u xt yt)))
                (by rw [dlookup_dset_ne _ _ _ _ hru]; exact hp) preds h
        · rw [if_neg (by simp [h3])] at h
          by_cases h4 : i = "diri"
          · subst h4
            rw [if_pos (by decide)] at h
            cases hx : dlookup xts "diri" with
            | none => simp only [hx] at h; exact Except.noConfusion h
            | some xt =>
              cases hy : dlookup yts "diri" with
              | none => simp only [hx, hy] at h; exact Except.noConfusion h
              | some yt =>
                simp only [hx, hy] at h
                exact ih (dset p "diri" (some (net_u xt yt)))
                  (by rw [dlookup_dset_ne _ _ _ _ hrd]; exact hp) preds h
          · rw [if_neg (by simp [h4])] at h
            exact ih p hp preds h

/-- C10: a requested role name outside {u, diri, nuem, f} is silently
skipped by forward: for a singleton unknown role the call succeeds and
returns the role mapped to Python None without consulting any evaluator
or the point-sets, and in any successful call whose explicit key list
contains an unknown role, that role is still mapped to None in the
returned bundle. -/
theorem C10_forward_unknown_role :
    (∀ (net_u : Tensor → Tensor → Tensor)
        (net_du : Tensor → Tensor → Tensor × Tensor)
        (net_f : Tensor → Tensor → Tensor)
        (xts yts : TDict) (r : String),
        r ∉ (["u", "diri", "nuem", "f"] : List String) →
        forward net_u net_du net_f xts yts (some [r]) =
          Except.ok [(r, none)]) ∧
    (∀ (net_u : Tensor → Tensor → Tensor)
        (net_du : Tensor → Tensor → Tensor × Tensor)
        (net_f : Tensor → Tensor → Tensor)
        (xts yts : TDict) (ks : List String) (r : String),
        r ∈ ks → r ∉ (["u", "diri", "nuem", "f"] : List String) →
        ∀ preds,
          forward net_u net_du net_f xts yts (some ks) = Except.ok preds →
          dlookup preds r = some none) := by
  constructor
  · intro nu nd nf xts yts r hr
    have hru : r ≠ "u" := by intro e; subst e; simp at hr
    have hrd : r ≠ "diri" := by intro e; subst e; simp at hr
    have hrn : r ≠ "nuem" := by intro e; subst e; simp at hr
    have hrf : r ≠ "f" := by intro e; subst e; simp at hr
    show forwardLoop nu nd nf xts yts [r] (some [(r, none)]) =
      Except.ok [(r, none)]
    rw [forwardLoop, if_neg (by simp [hrn]), if_neg (by simp [hrf]),
      if_neg (by simp [hru]), if_neg (by simp [hrd])]
    rfl
  · intro nu nd nf xts yts ks r hks hr preds h
    exact forwardLoop_unknown nu nd nf xts yts r hr ks
      (ks.map (fun k => (k, none)))
      (dlookup_map_none ks r hks) preds h

/-- Witness for C10 at the unknown role name xyz. -/
theorem C10_forward_unknown_role_witness :
    ("xyz" ∉ (["u", "diri", "nuem", "f"] : List String)) ∧
    forward (fun a _ => a) (fun a b => (a, b)) (fun a _ => a) [] []
        (some ["xyz"]) =
      Except.ok [("xyz", none)] :=
  ⟨by decide,
   C10_forward_unknown_role.1 (fun a _ => a) (fun a b => (a, b))
     (fun a _ => a) [] [] "xyz" (by decide)⟩

lemma trainStep_appends (net_u : Tensor → Tensor → Tensor)
    (net_du : Tensor → Tensor → Tensor × Tensor)
    (net_f : Tensor → Tensor → Tensor)
    (autogradQ : ℚ → List Tensor → List Tensor)
    (xts yts td : TDict) (st st1 : PINNState) (l : ℚ)
    (h : trainStep net_u net_du net_f autogradQ xts yts td st =
      Except.ok (st1, l)) :
    st1.loss_list = st.loss_list ++ [l] := by
  cases hf : forward net_u net_du net_f xts yts (some ["diri", "nuem", "f"]) with
  | error e =>
    simp only [trainStep, hf] at h
    exact Except.noConfusion h
  | ok pd =>
    cases hl : loss_func pd td none with
    | error e =>
      simp only [trainStep, hf, hl] at h
      exact Except.noConfusion h
    | ok l2 =>
      simp only [trainStep, hf, hl, Except.ok.injEq, Prod.mk.injEq] at h
      obtain ⟨h1, h2⟩ := h
      subst h2
      rw [← h1]
      rfl

lemma runSteps_appends (body : PINNState → Except String (PINNState × ℚ))
    (update : List Tensor → List Tensor → List (Option Tensor) →
      List Tensor × List Tensor)
    (H : ∀ st st1 (l : ℚ), body st = Except.ok (st1, l) →
      st1.loss_list = st.loss_list ++ [l]) :
    ∀ (n : Nat) (st : PINNState), ∃ t : List ℚ,
      (runSteps body update n st).1.loss_list = st.loss_list ++ t ∧
      t.length = (runSteps body update n st).2.1 ∧
      (runSteps body update n st).2.1 ≤ n ∧
      ((runSteps body update n st).2.2 = none →
        (runSteps body update n st).2.1 = n) := by
  intro n
  induction n with
  | zero =>
    intro st
    exact ⟨[], by simp [runSteps], by simp [runSteps], Nat.le_refl 0,
      fun _ => rfl⟩
  | succ n ih =>
    intro st
    cases hb : body st with
    | error e =>
      refine ⟨[], by simp [runSteps, hb], by simp [runSteps, hb],
        by simp [runSteps, hb], ?_⟩
      simp only [runSteps, hb]
      intro hc
      exact Option.noConfusion hc
    | ok r1 =>
      obtain ⟨st1, l⟩ := r1
      obtain ⟨t2, ht1, ht2, ht3, ht4⟩ := ih
        { st1 with
            weights := (update st1.weights st1.biases st1.grads).1,
            biases := (update st1.weights st1.biases st1.grads).2 }
      refine ⟨l :: t2, ?_, ?_, ?_, ?_⟩
      · simp only [runSteps, hb]
        rw [ht1]
        show (st1.loss_list ++ t2) = st.loss_list ++ (l :: t2)
        rw [H st st1 l hb, List.append_assoc]
        rfl
      · simp only [runSteps, hb, List.length_cons, ht2]
      · simp only [runSteps, hb]
        exact Nat.succ_le_succ ht3
      · simp only [runSteps, hb]
        intro hc
        rw [ht4 hc]

lemma train_LBFGS_appends (net_u : Tensor → Tensor → Tensor)
    (net_du : Tensor → Tensor → Tensor × Tensor)
    (net_f : Tensor → Tensor → Tensor)
    (autogradQ : ℚ → List Tensor → List Tensor)
    (update : List Tensor → List Tensor → List (Option Tensor) →
      List Tensor × List Tensor)
    (nEvals : Nat) (td : TrainDict) (st stf : PINNState)
    (h : train_LBFGS net_u net_du net_f autogradQ update nEvals td st =
      Except.ok stf) :
    ∃ t : List ℚ, stf.loss_list = st.loss_list ++ t ∧ t.length = nEvals := by
  cases hu : unzip_train_dict td none with
  | error e =>
    simp only [train_LBFGS, hu] at h
    exact Except.noConfusion h
  | ok trip =>
    obtain ⟨xts, rest⟩ := trip
    obtain ⟨yts, tdd⟩ := rest
    obtain ⟨t, ht1, ht2, ht3, ht4⟩ :=
      runSteps_appends (trainStep net_u net_du net_f autogradQ xts yts tdd)
        update
        (fun a b c hh => trainStep_appends net_u net_du net_f autogradQ
          xts yts tdd a b c hh)
        nEvals st
    cases he : (runSteps (trainStep net_u net_du net_f autogradQ xts yts tdd)
        update nEvals st).2.2 with
    | some e =>
      simp only [train_LBFGS, hu, he] at h
      exact Except.noConfusion h
    | none =>
      cases hf : forward net_u net_du net_f xts yts
          (some ["diri", "nuem", "f"]) with
      | error e =>
        simp only [train_LBFGS, hu, he, hf] at h
        exact Except.noConfusion h
      | ok pd =>
        cases hl : loss_func pd tdd none with
        | error e =>
          simp only [train_LBFGS, hu, he, hf, hl] at h
          exact Except.noConfusion h
        | ok l =>
          simp only [train_LBFGS, hu, he, hf, hl, Except.ok.injEq] at h
          rw [← h]
          exact ⟨t, ht1, by rw [ht2]; exact ht4 he⟩

/-- C8: the loss history is append-only.  callback appends exactly one
entry; every successful run of the shared loop body (the closure in
quasi-Newton mode, one iteration in first-order mode) extends the history
by exactly its one recorded loss; across any run of the iteration
skeleton the old history is a prefix of the new one and the number of new
entries equals the number of completed loss evaluations (all n of them
when no error occurred); and a successful train_LBFGS run extends the
history by exactly its nEvals closure evaluations (the final resting loss
computation is not recorded). -/
theorem C8_loss_history_append_only :
    (∀ (st : PINNState) (l : ℚ),
        (callback st l).loss_list = st.loss_list ++ [l]) ∧
    (∀ (net_u : Tensor → Tensor → Tensor)
        (net_du : Tensor → Tensor → Tensor × Tensor)
        (net_f : Tensor → Tensor → Tensor)
        (autogradQ : ℚ → List Tensor → List Tensor)
        (xts yts td : TDict) (st st1 : PINNState) (l : ℚ),
        trainStep net_u net_du net_f autogradQ xts yts td st =
          Except.ok (st1, l) →
        st1.loss_list = st.loss_list ++ [l]) ∧
    (∀ (body : PINNState → Except String (PINNState × ℚ))
        (update : List Tensor → List Tensor → List (Option Tensor) →
          List Tensor × List Tensor),
        (∀ st st1 (l : ℚ), body st = Except.ok (st1, l) →
          st1.loss_list = st.loss_list ++ [l]) →
        ∀ (n : Nat) (st : PINNState), ∃ t : List ℚ,
          (runSteps body update n st).1.loss_list = st.loss_list ++ t ∧
          t.length = (runSteps body update n st).2.1 ∧
          (runSteps body update n st).2.1 ≤ n ∧
          ((runSteps body update n st).2.2 = none →
            (runSteps body update n st).2.1 = n)) ∧
    (∀ (net_u : Tensor → Tensor → Tensor)
        (net_du : Tensor → Tensor → Tensor × Tensor)
        (net_f : Tensor → Tensor → Tensor)
        (autogradQ : ℚ → List Tensor → List Tensor)
        (update : List Tensor → List Tensor → List (Option Tensor) →
          List Tensor × List Tensor)
        (nEvals : Nat) (td : TrainDict) (st stf : PINNState),
        train_LBFGS net_u net_du net_f autogradQ update nEvals td st =
          Except.ok stf →
        ∃ t : List ℚ, stf.loss_list = st.loss_list ++ t ∧
          t.length = nEvals) :=
  ⟨fun _ _ => rfl, trainStep_appends, runSteps_appends, train_LBFGS_appends⟩

/-- Witness for C8: two evaluations of a loop body built from callback,
run through the iteration skeleton from the empty history. -/
theorem C8_loss_history_append_only_witness :
    ∃ t : List ℚ,
      (runSteps (fun st => Except.ok (callback st 0, 0))
          (fun ws bs _ => (ws, bs)) 2
          ⟨[], [], [], [], none, none⟩).1.loss_list =
        (⟨[], [], [], [], none, none⟩ : PINNState).loss_list ++ t ∧
      t.length =
        (runSteps (fun st => Except.ok (callback st 0, 0))
          (fun ws bs _ => (ws, bs)) 2
          ⟨[], [], [], [], none, none⟩).2.1 ∧
      (runSteps (fun st => Except.ok (callback st 0, 0))
          (fun ws bs _ => (ws, bs)) 2
          ⟨[], [], [], [], none, none⟩).2.1 ≤ 2 ∧
      ((runSteps (fun st => Except.ok (callback st 0, 0))
          (fun ws bs _ => (ws, bs)) 2
          ⟨[], [], [], [], none, none⟩).2.2 = none →
        (runSteps (fun st => Except.ok (callback st 0, 0))
          (fun ws bs _ => (ws, bs)) 2
          ⟨[], [], [], [], none, none⟩).2.1 = 2) :=
  C8_loss_history_append_only.2.2.1 (fun st => Except.ok (callback st 0, 0))
    (fun ws bs _ => (ws, bs))
    (fun st st1 l hh => by
      simp only [Except.ok.injEq, Prod.mk.injEq] at hh
      obtain ⟨h1, h2⟩ := hh
      subst h2
      rw [← h1]
      rfl)
    2 ⟨[], [], [], [], none, none⟩

/-- C4 (code bug): the first-order train method never reads its data
arguments.  Its body unpacks the name train_dict, which is not a
parameter: without a global train_dict the call raises NameError at once
(first conjunct, evaluated concretely), and the result is entirely
independent of the supplied u_data, f_data and bc_data (second
conjunct), so the predictions are not computed from the supplied
training data as the claim requires. -/
theorem C4_train_reads_global_train_dict :
    (train (fun a _ => a) (fun a b => (a, b)) (fun a _ => a)
        (fun _ ps => ps) (fun ws bs _ => (ws, bs)) 3
        (Tensor.empty, Tensor.empty, Tensor.empty)
        (Tensor.empty, Tensor.empty, Tensor.empty)
        (Tensor.empty, Tensor.empty, Tensor.empty)
        none ⟨[], [], [], [], none, none⟩ =
      Except.error "NameError: name train_dict is not defined") ∧
    (∀ (net_u : Tensor → Tensor → Tensor)
        (net_du : Tensor → Tensor → Tensor × Tensor)
        (net_f : Tensor → Tensor → Tensor)
        (autogradQ : ℚ → List Tensor → List Tensor)
        (update : List Tensor → List Tensor → List (Option Tensor) →
          List Tensor × List Tensor)
        (epoch : Nat) (u1 f1 b1 u2 f2 b2 : Triple)
        (g : Option TrainDict) (st : PINNState),
        train net_u net_du net_f autogradQ update epoch u1 f1 b1 g st =
        train net_u net_du net_f autogradQ update epoch u2 f2 b2 g st) :=
  ⟨rfl, fun _ _ _ _ _ _ _ _ _ _ _ _ _ _ => rfl⟩

/-- C9: customized_backward assigns to each parameter grad slot the
derivative of the loss with respect to that parameter, positionally, and
leaves every parameter value unchanged. -/
theorem C9_customized_backward_frame {n : ℕ} (loss : (Fin n → ℝ) → ℝ)
    (params : ParamR n) (i : Fin n) :
    ((customized_backward loss params).1.val i = params.val i) ∧
    ((customized_backward loss params).1.grad i =
      some (deriv (fun t => loss (Function.update params.val i t))
        (params.val i))) ∧
    ((customized_backward loss params).2 i = gradVec loss params.val i) :=
  ⟨rfl, rfl, rfl⟩

lemma update_sum_eq {N : ℕ} (g : Fin N → ℝ → ℝ) (v : Fin N → ℝ) (i : Fin N) :
    (fun t => ∑ j, g j (Function.update v i t j)) =
      (fun t => g i t + ∑ j ∈ Finset.univ.erase i, g j (v j)) := by
  funext t
  rw [← Finset.add_sum_erase Finset.univ
    (fun j => g j (Function.update v i t j)) (Finset.mem_univ i)]
  congr 1
  · rw [Function.update_same]
  · exact Finset.sum_congr rfl (fun j hj => by
      rw [Function.update_noteq (Finset.ne_of_mem_erase hj)])

lemma gradVec_sum {N : ℕ} (g : Fin N → ℝ → ℝ) (v : Fin N → ℝ) (i : Fin N) :
    gradVec (fun w => ∑ j, g j (w j)) v i = deriv (g i) (v i) := by
  show deriv (fun t => ∑ j, g j (Function.update v i t j)) (v i) =
    deriv (g i) (v i)
  rw [update_sum_eq g v i]
  exact deriv_add_const _

lemma net_du_val_fst {N : ℕ} (Ws : List (List (List ℝ)))
    (bs : List (List ℝ)) (xv yv : Fin N → ℝ) (i : Fin N) :
    (net_du_val Ws bs xv yv).1 i =
      deriv (fun t => netPointR Ws bs t (yv i)) (xv i) :=
  gradVec_sum (fun j s => netPointR Ws bs s (yv j)) xv i

lemma net_du_val_snd {N : ℕ} (Ws : List (List (List ℝ)))
    (bs : List (List ℝ)) (xv yv : Fin N → ℝ) (i : Fin N) :
    (net_du_val Ws bs xv yv).2 i =
      deriv (fun t => netPointR Ws bs (xv i) t) (yv i) :=
  gradVec_sum (fun j s => netPointR Ws bs (xv j) s) yv i

/-- C1: for gradient-tracked column inputs, net_f returns the sum of the
two second partial derivatives of the rowwise network output - each
obtained by sum-then-gradient of the corresponding first derivative with
respect to the same input - and the returned tensor keeps the
requires-grad flag set. -/
theorem C1_net_f_laplacian {N : ℕ} (Ws : List (List (List ℝ)))
    (bs : List (List ℝ)) (x y : RTensor N)
    (hx : x.requiresGrad = true) (hy : y.requiresGrad = true) :
    net_f Ws bs x y = Except.ok
      ⟨fun i =>
          deriv (deriv (fun t => netPointR Ws bs t (y.val i))) (x.val i) +
            deriv (deriv (fun t => netPointR Ws bs (x.val i) t)) (y.val i),
        true⟩ := by
  simp only [net_f, net_du, hx, hy, Bool.and_self, if_true]
  simp only [Except.ok.injEq, RTensor.mk.injEq]
  refine ⟨funext fun i => ?_, trivial⟩
  have e1 : gradVec (fun yw => ∑ j, (net_du_val Ws bs x.val yw).2 j) y.val i =
      deriv (deriv (fun t => netPointR Ws bs (x.val i) t)) (y.val i) := by
    have hfun : (fun yw => ∑ j, (net_du_val Ws bs x.val yw).2 j) =
        fun yw => ∑ j,
          (fun j2 => deriv (fun t => netPointR Ws bs (x.val j2) t)) j (yw j) := by
      funext yw
      exact Finset.sum_congr rfl
        (fun j _ => net_du_val_snd Ws bs x.val yw j)
    rw [hfun]
    exact gradVec_sum
      (fun j2 => deriv (fun t => netPointR Ws bs (x.val j2) t)) y.val i
  have e2 : gradVec (fun xw => ∑ j, (net_du_val Ws bs xw y.val).1 j) x.val i =
      deriv (deriv (fun t => netPointR Ws bs t (y.val i))) (x.val i) := by
    have hfun : (fun xw => ∑ j, (net_du_val Ws bs xw y.val).1 j) =
        fun xw => ∑ j,
          (fun j2 => deriv (fun t => netPointR Ws bs t (y.val j2))) j (xw j) := by
      funext xw
      exact Finset.sum_congr rfl
        (fun j _ => net_du_val_fst Ws bs xw y.val j)
    rw [hfun]
    exact gradVec_sum
      (fun j2 => deriv (fun t => netPointR Ws bs t (y.val j2))) x.val i
  rw [e1, e2, add_comm]

/-- Witness for C1 on the one-layer network with weights (1, 1), zero
bias and tracked zero inputs. -/
theorem C1_net_f_laplacian_witness :
    (⟨fun _ => 0, true⟩ : RTensor 1).requiresGrad = true ∧
    net_f [[[(1 : ℝ)], [1]]] [[0]] (⟨fun _ => 0, true⟩ : RTensor 1)
        ⟨fun _ => 0, true⟩ =
      Except.ok
        ⟨fun i =>
            deriv (deriv (fun t => netPointR [[[(1 : ℝ)], [1]]] [[0]] t
                ((⟨fun _ => 0, true⟩ : RTensor 1).val i)))
              ((⟨fun _ => 0, true⟩ : RTensor 1).val i) +
              deriv (deriv (fun t => netPointR [[[(1 : ℝ)], [1]]] [[0]]
                ((⟨fun _ => 0, true⟩ : RTensor 1).val i) t))
              ((⟨fun _ => 0, true⟩ : RTensor 1).val i),
          true⟩ :=
  ⟨rfl, C1_net_f_laplacian [[[(1 : ℝ)], [1]]] [[0]] ⟨fun _ => 0, true⟩
    ⟨fun _ => 0, true⟩ rfl rfl⟩
